import Mathlib

/-!
Verification of the `bootcamp_data` ETL pipeline: a shallow embedding of the
tabular data model, the quality gates, the text normalizer/mapper, the
cardinality-checked join, the outlier capper, and the orchestration code in
`src/bootcamp_data/etl.py`, `scripts/run_day2_clean.py` and
`scripts/run_day3_build_analytics.py`.  The modules `bootcamp_data.quality`,
`bootcamp_data.transforms` and `bootcamp_data.joins` are not part of the
sources; their operations are modelled from the specification, as marked in
their doc comments.  File I/O (the Loader/Writer collaborators) is modelled by
explicit input parameters and a list of write events.
-/

/-- Typed scalar values held by a cell of a tabular dataset. -/
inductive Value where
  | str (s : String)
  | num (q : ℚ)
  | boolean (b : Bool)
deriving DecidableEq, Repr

/-- A cell is a value or null (pandas `NaN` / `NaT` / `None`). -/
abbrev Cell := Option Value

/-- Column-oriented tabular dataset: an ordered list of named columns of cells. -/
structure DataFrame where
  cols : List (String × List Cell)
deriving DecidableEq, Repr

/-- Names of the columns, in order (`df.columns`). -/
def colNames (df : DataFrame) : List String := df.cols.map (fun c => c.1)

/-- Data of the first column with the given name, if present (`df[name]`). -/
def getCol (df : DataFrame) (name : String) : Option (List Cell) :=
  (df.cols.find? (fun c => c.1 == name)).map (fun c => c.2)

/-- Data of the named column, defaulting to the empty column. -/
def getColD (df : DataFrame) (name : String) : List Cell :=
  (getCol df name).getD []

/-- Whether the dataset has a column with the given name (`name in df.columns`). -/
def hasCol (df : DataFrame) (name : String) : Bool := (getCol df name).isSome

/-- Row count of the dataset (`len(df)`), read off the first column. -/
def nRows (df : DataFrame) : Nat :=
  match df.cols with
  | [] => 0
  | c :: _ => c.2.length

/-- Column assignment (`df[name] = data` / `df.assign`): replaces the column in
place if it exists, otherwise appends it. -/
def setCol (df : DataFrame) (name : String) (data : List Cell) : DataFrame :=
  if hasCol df name then
    ⟨df.cols.map (fun c => if c.1 == name then (name, data) else c)⟩
  else ⟨df.cols ++ [(name, data)]⟩

/-- The error taxonomy of the pipeline (spec section 7). -/
inductive ETLError where
  | schemaError (col : String)
  | emptyDatasetError (label : String)
  | uniquenessError (key : String)
  | rangeError (name : String)
  | joinCardinalityError
  | assertionError (msg : String)
  | sourceReadError
deriving DecidableEq, Repr

/-- Equality of fallible results is decidable, so concrete pipeline runs can be
settled by `decide`. -/
instance {ε α : Type} [DecidableEq ε] [DecidableEq α] : DecidableEq (Except ε α) := fun a b =>
  match a, b with
  | .ok x, .ok y =>
    if h : x = y then isTrue (by rw [h]) else isFalse (fun hc => by cases hc; exact h rfl)
  | .error x, .error y =>
    if h : x = y then isTrue (by rw [h]) else isFalse (fun hc => by cases hc; exact h rfl)
  | .ok _, .error _ => isFalse (fun hc => by cases hc)
  | .error _, .ok _ => isFalse (fun hc => by cases hc)

/-- Modelled from the spec: `require_columns` of the missing module
`bootcamp_data.quality` fails with `SchemaError` naming an absent column when
any required name is missing, and returns normally otherwise. -/
def require_columns (df : DataFrame) (names : List String) : Except ETLError Unit :=
  match names.find? (fun n => !(hasCol df n)) with
  | some n => .error (.schemaError n)
  | none => .ok ()

/-- Modelled from the spec: `assert_non_empty` of the missing module
`bootcamp_data.quality` fails with `EmptyDatasetError` when the row count is zero. -/
def assert_non_empty (df : DataFrame) (label : String) : Except ETLError Unit :=
  if nRows df = 0 then .error (.emptyDatasetError label) else .ok ()

/-- Modelled from the spec: `assert_unique_key` of the missing module
`bootcamp_data.quality` fails with `UniquenessError` when any value of the key
column repeats. -/
def assert_unique_key (df : DataFrame) (key : String) : Except ETLError Unit :=
  if (getColD df key).Nodup then .ok () else .error (.uniquenessError key)

/-- Modelled from the spec: `assert_in_range` of the missing module
`bootcamp_data.quality` fails with `RangeError` when any non-null numeric value
falls below the lower bound; nulls are exempt.  Both call sites use the default
infinite upper bound, which is therefore omitted. -/
def assert_in_range (col : List Cell) (lo : ℚ) (name : String) : Except ETLError Unit :=
  if col.all (fun c => match c with
      | some (.num q) => decide (lo ≤ q)
      | _ => true) then .ok ()
  else .error (.rangeError name)

/-- The space character used when rejoining collapsed words. -/
def spaceChar : Char := ' '

/-- Splits a character list into maximal whitespace-free words. -/
def wordsAux : List Char → List Char → List (List Char)
  | cur, [] => if cur.isEmpty then [] else [cur.reverse]
  | cur, c :: cs =>
    if c.isWhitespace then
      (if cur.isEmpty then wordsAux [] cs else cur.reverse :: wordsAux [] cs)
    else wordsAux (c :: cur) cs

/-- Joins words with single spaces. -/
def joinWords : List (List Char) → List Char
  | [] => []
  | [w] => w
  | w :: ws => w ++ spaceChar :: joinWords ws

/-- Lowercases, strips leading/trailing whitespace and collapses internal
whitespace runs to single spaces. -/
def normalizeStr (s : String) : String :=
  String.mk (joinWords (wordsAux [] (s.data.map Char.toLower)))

/-- Modelled from the spec: `normalize_text` of the missing module
`bootcamp_data.transforms` lowercases, strips and collapses whitespace of text
values; nulls and non-text values pass through unchanged. -/
def normalize_text (col : List Cell) : List Cell :=
  col.map (fun c => match c with
    | some (.str s) => some (.str (normalizeStr s))
    | other => other)

/-- The distinguishable sentinel for values missing from a controlled vocabulary. -/
def unmappedSentinel (s : String) : String := "<unmapped:" ++ s ++ ">"

/-- Modelled from the spec: `apply_mapping` of the missing module
`bootcamp_data.transforms` replaces each text value via exact-match lookup;
values with no match become a distinguishable unmapped sentinel, nulls pass
through. -/
def apply_mapping (col : List Cell) (m : List (String × String)) : List Cell :=
  col.map (fun c => match c with
    | some (.str s) =>
      match m.lookup s with
      | some v => some (.str v)
      | none => some (.str (unmappedSentinel s))
    | other => other)

/-- Modelled from the spec: `enforce_schema` of the missing module
`bootcamp_data.transforms` coerces columns to their declared types; cells of
this embedding are already typed, so it is the identity on the dataset. -/
def enforce_schema (df : DataFrame) : DataFrame := df

/-- Boolean was-missing indicators for one column. -/
def missingFlags (data : List Cell) : List Cell :=
  data.map (fun c => some (.boolean c.isNone))

/-- Modelled from the spec: `add_missing_flags` of the missing module
`bootcamp_data.transforms` adds, for each named column, a boolean column
`{col}_missing` that is true exactly where the source value is null; the source
column is left untouched. -/
def add_missing_flags (df : DataFrame) (cols : List String) : DataFrame :=
  cols.foldl (fun d c => setCol d (c ++ "_missing") (missingFlags (getColD d c))) df

/-- Value of a decimal-numeral character list, none on any non-digit. -/
def parseDigits : List Char → Nat → Option Nat
  | [], acc => some acc
  | c :: cs, acc =>
    if c.isDigit then parseDigits cs (acc * 10 + (c.toNat - 48)) else none

/-- Value of a non-empty decimal-numeral string, none otherwise. -/
def parseTs (s : String) : Option Nat :=
  if s.data.isEmpty then none else parseDigits s.data 0

/-- Modelled from the spec: timestamps are abstracted as numeric instants.  A
text cell parses iff it is a decimal numeral; anything unparseable becomes null
(the deliberate soft-fail path); already-parsed instants are kept. -/
def parseTsCell : Cell → Cell
  | some (.num q) => some (.num q)
  | some (.str s) =>
    match parseTs s with
    | some n => some (.num (n : ℚ))
    | none => none
  | _ => none

/-- Modelled from the spec: `parse_datetime` of the missing module
`bootcamp_data.transforms` parses the named text column into normalized
instants, turning unparseable values into nulls. -/
def parse_datetime (df : DataFrame) (col : String) : DataFrame :=
  setCol df col ((getColD df col).map parseTsCell)

/-- One calendar part of an instant; null timestamps propagate to null parts. -/
def partCell (f : ℤ → ℤ) : Cell → Cell
  | some (.num q) => some (.num ((f ⌊q⌋ : ℤ) : ℚ))
  | _ => none

/-- Modelled from the spec: `add_time_parts` of the missing module
`bootcamp_data.transforms` derives calendar-part columns (year, month, day,
hour) from the parsed timestamp column by decimal decomposition of the
instant; null timestamps yield null parts. -/
def add_time_parts (df : DataFrame) (ts : String) : DataFrame :=
  let d := getColD df ts
  setCol (setCol (setCol (setCol df
    "year" (d.map (partCell (fun z => z / 10000))))
    "month" (d.map (partCell (fun z => z / 100 % 100))))
    "day" (d.map (partCell (fun z => z % 100))))
    "hour" (d.map (partCell (fun _ => 0)))

/-- Index of the first right-side row whose key equals the given left key; a
null key matches nothing. -/
def matchIdx (rkey : List Cell) (k : Cell) : Option Nat :=
  match k with
  | none => none
  | some kv => rkey.findIdx? (fun x => decide (x = some kv))

/-- Right-side cell joined onto a left row with key `k`: the matching row's
value, or null when the left row is unmatched. -/
def lookupCell (rkey rdata : List Cell) (k : Cell) : Cell :=
  match matchIdx rkey k with
  | some j => rdata.getD j none
  | none => none

/-- Modelled from the spec: `safe_left_join` of the missing module
`bootcamp_data.joins` first confirms the declared many-to-one cardinality (key
uniqueness on the right side), failing with `JoinCardinalityError` otherwise,
then materializes a left outer join: every left row is preserved, and right
non-key columns carry the matching right value or null for unmatched rows.
The pipeline's column names overlap only on the key, so suffix renaming never
fires and is not modelled. -/
def safe_left_join (l r : DataFrame) (key : String) : Except ETLError DataFrame :=
  let rkey := getColD r key
  if rkey.Nodup then
    let lkey := getColD l key
    .ok ⟨l.cols ++ (r.cols.filter (fun c => c.1 != key)).map
      (fun c => (c.1, lkey.map (lookupCell rkey c.2)))⟩
  else .error .joinCardinalityError

/-- Kernel-reducible product on ℚ (`Rat.mul` is irreducible). -/
def qmul (a b : ℚ) : ℚ := Rat.divInt (a.num * b.num) ((a.den : ℤ) * (b.den : ℤ))

/-- Kernel-reducible difference on ℚ (`Rat.sub` is irreducible). -/
def qsub (a b : ℚ) : ℚ :=
  Rat.divInt (a.num * (b.den : ℤ) - b.num * (a.den : ℤ)) ((a.den : ℤ) * (b.den : ℤ))

/-- Kernel-reducible sum on ℚ (`Rat.add` is irreducible). -/
def qadd (a b : ℚ) : ℚ :=
  Rat.divInt (a.num * (b.den : ℤ) + b.num * (a.den : ℤ)) ((a.den : ℤ) * (b.den : ℤ))

/-- Numeric content of a cell, if any. -/
def numOf : Cell → Option ℚ
  | some (.num q) => some q
  | _ => none

/-- The column's non-null numeric values in ascending order. -/
def sortedVals (col : List Cell) : List ℚ :=
  (col.filterMap numOf).insertionSort (fun a b => a ≤ b)

/-- First quartile of a sorted value list, as an order statistic. -/
def q1Of (s : List ℚ) : ℚ := s.getD ((s.length - 1) / 4) 0

/-- Third quartile of a sorted value list, as an order statistic. -/
def q3Of (s : List ℚ) : ℚ := s.getD (3 * (s.length - 1) / 4) 0

/-- 3/2 times the interquartile range of a sorted value list. -/
def reachOf (s : List ℚ) : ℚ := qmul (Rat.divInt 3 2) (qsub (q3Of s) (q1Of s))

/-- The IQR bounds of a sorted value list: first/third quartile (as order
statistics) minus/plus 3/2 times the interquartile range; none when empty. -/
def winsorBoundsOf (s : List ℚ) : Option (ℚ × ℚ) :=
  if s.isEmpty then none
  else some (qsub (q1Of s) (reachOf s), qadd (q3Of s) (reachOf s))

/-- Modelled from the spec: the IQR bounds of a column, first/third quartile
(as order statistics of the sorted values) minus/plus k times the
interquartile range, with k fixed to 3/2 as at both call sites; none when the
column has no numeric values. -/
def winsorBounds (col : List Cell) : Option (ℚ × ℚ) :=
  winsorBoundsOf (sortedVals col)

/-- Clamp a value into the interval `[lo, hi]`. -/
def clampQ (lo hi x : ℚ) : ℚ := if x < lo then lo else if hi < x then hi else x

/-- Clamp the numeric content of a cell; nulls and non-numeric cells pass through. -/
def capCell (lo hi : ℚ) : Cell → Cell
  | some (.num q) => some (.num (clampQ lo hi q))
  | c => c

/-- Modelled from the spec: `winsorize` of the missing module
`bootcamp_data.transforms` computes the column's IQR bounds and clamps values
outside them to the bound value; nulls pass through unchanged; a column with
no numeric values is returned unchanged. -/
def winsorize (col : List Cell) : List Cell :=
  match winsorBounds col with
  | none => col
  | some (lo, hi) => col.map (capCell lo hi)

/-- Modelled from the spec: `add_outlier_flag` of the missing module
`bootcamp_data.transforms` adds a boolean column `{col}_outlier` marking cells
of the named column, as given to it, whose value lies strictly outside the IQR
bounds of that column; null and non-numeric cells are flagged false. -/
def add_outlier_flag (df : DataFrame) (col : String) : DataFrame :=
  let d := getColD df col
  let flags :=
    match winsorBounds d with
    | none => d.map (fun _ => some (.boolean false))
    | some (lo, hi) => d.map (fun c => match c with
        | some (.num q) => some (.boolean (decide (q < lo) || decide (hi < q)))
        | _ => some (.boolean false))
  setCol df (col ++ "_outlier") flags

/-- The controlled status vocabulary of `etl.transform` and the day-2 script. -/
def statusMap : List (String × String) :=
  [("paid", "paid"), ("refund", "refund"), ("refunded", "refund")]

/-- Required columns of the raw orders extract. -/
def ordersRawCols : List String :=
  ["order_id", "user_id", "amount", "quantity", "created_at", "status"]

/-- Required columns of the users extract. -/
def usersCols : List String := ["user_id", "country", "signup_date"]

/-- The cleaning stage of `etl.transform` (source lines 50-59): schema
enforcement, normalized/mapped status, missingness flags, timestamp parsing
and time parts. -/
def cleanOrders (orders_raw : DataFrame) : DataFrame :=
  let orders := enforce_schema orders_raw
  let orders := setCol orders "status_clean"
    (apply_mapping (normalize_text (getColD orders "status")) statusMap)
  let orders := add_missing_flags orders ["amount", "quantity"]
  let orders := parse_datetime orders "created_at"
  add_time_parts orders "created_at"

/-- `etl.transform` (source lines 41-74), parametrized over the joiner it calls
so that the behaviour of the surrounding code can be stated for any result the
external `bootcamp_data.joins` collaborator might return.  Fail-fast checks,
cleaning, the many-to-one join, then winsorization of `amount` in place
followed by the outlier flag on the (already capped) `amount` column. -/
def transformW (join : DataFrame → DataFrame → String → Except ETLError DataFrame)
    (orders_raw users : DataFrame) : Except ETLError DataFrame := do
  _ ← require_columns orders_raw ordersRawCols
  _ ← require_columns users usersCols
  _ ← assert_non_empty orders_raw "orders_raw"
  _ ← assert_non_empty users "users"
  _ ← assert_unique_key users "user_id"
  let orders := cleanOrders orders_raw
  let analytics ← join orders users "user_id"
  let analytics := setCol analytics "amount" (winsorize (getColD analytics "amount"))
  return add_outlier_flag analytics "amount"

/-- `etl.transform` as written, calling the real joiner. -/
def transform (orders_raw users : DataFrame) : Except ETLError DataFrame :=
  transformW safe_left_join orders_raw users

/-- Run configuration (`ETLConfig` of `etl.py`): source, output and metadata
locations, with paths abstracted as strings. -/
structure ETLConfig where
  root : String
  raw_orders : String
  raw_users : String
  out_orders_clean : String
  out_users : String
  out_analytics : String
  runMeta : String
deriving DecidableEq, Repr

/-- The run metadata record assembled by `etl.write_run_meta`. -/
structure RunMeta where
  rows_in_orders_raw : Nat
  rows_in_users : Nat
  rows_out_analytics : Nat
  missing_created_at : Option Nat
  country_match_rate : Option ℚ
  config : ETLConfig
deriving DecidableEq, Repr

/-- A write event handed to the Writer collaborator. -/
inductive Write where
  | parquet (dest : String) (df : DataFrame)
  | meta (dest : String) (m : RunMeta)
deriving DecidableEq, Repr

/-- Whether a write event is the metadata write. -/
def isMetaWrite : Write → Bool
  | .meta _ _ => true
  | _ => false

/-- Count of null cells of the named column (`df[name].isna().sum()`). -/
def nullCount (df : DataFrame) (name : String) : Nat :=
  ((getColD df name).filter (fun c => c.isNone)).length

/-- Fraction of null cells of the named column (`df[name].isna().mean()`).
The pandas mean of an empty column is NaN; the empty case is outside this
model and theorems about the fraction assume a non-empty column. -/
def nullFraction (df : DataFrame) (name : String) : ℚ :=
  Rat.divInt (nullCount df name : ℤ) (((getColD df name).length : ℤ))

/-- The `orders_clean` dataset derived by `etl.load_outputs` (source lines
82-85): the analytics table minus the user-side columns (every users column
other than `user_id` that appears in analytics). -/
def ordersCleanOf (analytics users : DataFrame) : DataFrame :=
  let user_side_cols := (colNames users).filter (fun c => c != "user_id")
  let cols_to_drop := user_side_cols.filter (fun c => (colNames analytics).contains c)
  ⟨analytics.cols.filter (fun c => !(cols_to_drop.contains c.1))⟩

/-- `etl.load_outputs` (source lines 76-87): hands users, analytics and the
derived orders-only table to the Writer, in source order. -/
def load_outputs (analytics users : DataFrame) (cfg : ETLConfig) : List Write :=
  [.parquet cfg.out_users users,
   .parquet cfg.out_analytics analytics,
   .parquet cfg.out_orders_clean (ordersCleanOf analytics users)]

/-- `etl.write_run_meta` (source lines 89-113): the metadata record, with the
two metrics degrading to null when their column is absent. -/
def writeRunMeta (cfg : ETLConfig) (orders_raw users analytics : DataFrame) : RunMeta :=
  { rows_in_orders_raw := nRows orders_raw
    rows_in_users := nRows users
    rows_out_analytics := nRows analytics
    missing_created_at :=
      if hasCol analytics "created_at" then some (nullCount analytics "created_at") else none
    country_match_rate :=
      if hasCol analytics "country" then some (qsub 1 (nullFraction analytics "country"))
      else none
    config := cfg }

/-- `etl.run_etl` (source lines 115-138): Extract, Transform, Load, Metadata.
The Loader collaborator is modelled by the `loaded` argument (its read failure
included); the result is the list of write events together with the fatal
error, if any. -/
def run_etl (cfg : ETLConfig) (loaded : Except ETLError (DataFrame × DataFrame)) :
    List Write × Option ETLError :=
  match loaded with
  | .error e => ([], some e)
  | .ok (orders_raw, users_raw) =>
    match transform orders_raw users_raw with
    | .error e => ([], some e)
    | .ok analytics =>
      (load_outputs analytics users_raw cfg ++
        [.meta cfg.runMeta (writeRunMeta cfg orders_raw users_raw analytics)], none)

/-- `scripts/run_day2_clean.py` `main` (file I/O and the diagnostic
missingness report, both excluded collaborators, aside): fail-fast checks,
cleaning, the post-transform range checks of Task 7, then the Writer calls. -/
def day2Main (orders_raw users : DataFrame) : Except ETLError (List Write) := do
  _ ← require_columns orders_raw ordersRawCols
  _ ← require_columns users usersCols
  _ ← assert_non_empty orders_raw "orders_raw"
  _ ← assert_non_empty users "users"
  let orders := enforce_schema orders_raw
  let status_clean := apply_mapping (normalize_text (getColD orders "status")) statusMap
  let orders_clean := add_missing_flags (setCol orders "status_clean" status_clean)
    ["amount", "quantity"]
  _ ← assert_in_range (getColD orders_clean "amount") 0 "amount"
  _ ← assert_in_range (getColD orders_clean "quantity") 0 "quantity"
  return [.parquet "orders_clean.parquet" orders_clean, .parquet "users.parquet" users]

/-- Required columns of the cleaned orders input of the day-3 script. -/
def day3OrderCols : List String :=
  ["order_id", "user_id", "amount", "quantity", "created_at", "status_clean"]

/-- The time stage of the day-3 script (source lines 39-43). -/
def cleanedDay3 (orders : DataFrame) : DataFrame :=
  add_time_parts (parse_datetime orders "created_at") "created_at"

/-- `scripts/run_day3_build_analytics.py` `main` (file I/O and the summary
report excluded), parametrized over the joiner: checks, time decomposition,
the join, the explicit post-join row-count guard raising `AssertionError`,
winsorization into the separate `amount_winsor` column, the outlier flag on
the original `amount` column, then the Writer call. -/
def day3W (join : DataFrame → DataFrame → String → Except ETLError DataFrame)
    (orders users : DataFrame) : Except ETLError (List Write) := do
  _ ← require_columns orders day3OrderCols
  _ ← require_columns users usersCols
  _ ← assert_non_empty orders "orders_clean"
  _ ← assert_non_empty users "users"
  _ ← assert_unique_key users "user_id"
  let orders_t := cleanedDay3 orders
  let joined ← join orders_t users "user_id"
  if nRows joined ≠ nRows orders_t then
    .error (.assertionError "Row count changed on left join")
  else do
    let joined := setCol joined "amount_winsor" (winsorize (getColD joined "amount"))
    let joined := add_outlier_flag joined "amount"
    return [.parquet "analytics_table.parquet" joined]

/-- `run_day3_build_analytics.main` as written, calling the real joiner. -/
def day3Main (orders users : DataFrame) : Except ETLError (List Write) :=
  day3W safe_left_join orders users

/-- The dataset carried by a single-write result, used to inspect written tables. -/
def headFrame : List Write → Option DataFrame
  | [.parquet _ df] => some df
  | _ => none

/-- Orders fixture for scenario A: raw status values `Paid`, ` REFUNDED `, `paid`. -/
def ordersA : DataFrame :=
  ⟨[("order_id", [some (.str "o1"), some (.str "o2"), some (.str "o3")]),
    ("user_id", [some (.str "u1"), some (.str "u2"), some (.str "u1")]),
    ("amount", [some (.num 10), some (.num 20), some (.num 30)]),
    ("quantity", [some (.num 1), some (.num 2), some (.num 3)]),
    ("created_at", [some (.str "20240101"), some (.str "bad-ts"), none]),
    ("status", [some (.str "Paid"), some (.str " REFUNDED "), some (.str "paid")])]⟩

/-- Users fixture matching `ordersA`: unique key, one null country. -/
def usersA : DataFrame :=
  ⟨[("user_id", [some (.str "u1"), some (.str "u2")]),
    ("country", [some (.str "DE"), none]),
    ("signup_date", [some (.str "20230101"), some (.str "20230202")])]⟩

/-- Scenario B orders fixture: one row with `amount = -5`, all other checks passing. -/
def ordersNeg : DataFrame :=
  ⟨[("order_id", [some (.str "o1")]),
    ("user_id", [some (.str "u1")]),
    ("amount", [some (.num (-5))]),
    ("quantity", [some (.num 1)]),
    ("created_at", [some (.str "20240101")]),
    ("status", [some (.str "paid")])]⟩

/-- Single-row users fixture with a unique key. -/
def usersOne : DataFrame :=
  ⟨[("user_id", [some (.str "u1")]),
    ("country", [some (.str "DE")]),
    ("signup_date", [some (.str "20230101")])]⟩

/-- A run configuration fixture. -/
def cfg0 : ETLConfig :=
  { root := "data", raw_orders := "raw/orders.csv", raw_users := "raw/users.csv",
    out_orders_clean := "processed/orders_clean.parquet",
    out_users := "processed/users.parquet",
    out_analytics := "processed/analytics_table.parquet",
    runMeta := "processed/run_meta.json" }

/-- Orders fixture with one extreme `amount` outlier (1000 among 1..4). -/
def ordersOut : DataFrame :=
  ⟨[("order_id", [some (.str "o1"), some (.str "o2"), some (.str "o3"),
      some (.str "o4"), some (.str "o5")]),
    ("user_id", [some (.str "u1"), some (.str "u1"), some (.str "u1"),
      some (.str "u1"), some (.str "u1")]),
    ("amount", [some (.num 1), some (.num 2), some (.num 3), some (.num 4),
      some (.num 1000)]),
    ("quantity", [some (.num 1), some (.num 1), some (.num 1), some (.num 1),
      some (.num 1)]),
    ("created_at", [some (.str "20240101"), some (.str "20240102"),
      some (.str "20240103"), some (.str "20240104"), some (.str "20240105")]),
    ("status", [some (.str "paid"), some (.str "paid"), some (.str "paid"),
      some (.str "paid"), some (.str "paid")])]⟩

/-- The outlier fixture in the day-3 script's input shape (`status_clean` column). -/
def ordersOutC : DataFrame :=
  ⟨[("order_id", [some (.str "o1"), some (.str "o2"), some (.str "o3"),
      some (.str "o4"), some (.str "o5")]),
    ("user_id", [some (.str "u1"), some (.str "u1"), some (.str "u1"),
      some (.str "u1"), some (.str "u1")]),
    ("amount", [some (.num 1), some (.num 2), some (.num 3), some (.num 4),
      some (.num 1000)]),
    ("quantity", [some (.num 1), some (.num 1), some (.num 1), some (.num 1),
      some (.num 1)]),
    ("created_at", [some (.str "20240101"), some (.str "20240102"),
      some (.str "20240103"), some (.str "20240104"), some (.str "20240105")]),
    ("status_clean", [some (.str "paid"), some (.str "paid"), some (.str "paid"),
      some (.str "paid"), some (.str "paid")])]⟩

/-- A joiner returning a dataset whose row count differs from the left input's:
used to state that a caller does or does not guard against row-count deviation. -/
def badJoin : DataFrame → DataFrame → String → Except ETLError DataFrame :=
  fun _ _ _ => .ok ⟨[("order_id", [])]⟩

/-- Analytics fixture for the metadata metrics: four rows, one null
`created_at`, one null `country`. -/
def analyticsM : DataFrame :=
  ⟨[("order_id", [some (.str "o1"), some (.str "o2"), some (.str "o3"),
      some (.str "o4")]),
    ("created_at", [some (.num 1), none, some (.num 2), some (.num 3)]),
    ("country", [some (.str "DE"), none, some (.str "FR"), some (.str "DE")])]⟩

/-- Analytics fixture with neither a `created_at` nor a `country` column. -/
def analyticsBare : DataFrame :=
  ⟨[("order_id", [some (.str "o1"), some (.str "o2")]),
    ("amount", [some (.num 1), some (.num 2)])]⟩

/-- Analytics-shaped fixture holding both `user_id` and a user-side `country`
column. -/
def analyticsD : DataFrame :=
  ⟨[("order_id", [some (.str "o1"), some (.str "o2")]),
    ("user_id", [some (.str "u1"), some (.str "u2")]),
    ("amount", [some (.num 5), some (.num 6)]),
    ("country", [some (.str "DE"), some (.str "FR")])]⟩

/-- A numeric column fixture with a null and an outlier. -/
def colW : List Cell :=
  [some (.num 1), none, some (.num 2), some (.num 3), some (.num 1000)]

/-- Users fixture with a duplicated `user_id` key. -/
def usersDup : DataFrame :=
  ⟨[("user_id", [some (.str "u1"), some (.str "u1")]),
    ("country", [some (.str "DE"), some (.str "FR")]),
    ("signup_date", [some (.str "20230101"), some (.str "20230202")])]⟩

/-- C7: for an orders input whose status column holds `["Paid", " REFUNDED ", "paid"]`,
the status_clean column computed by the pipeline equals `["paid", "refund", "paid"]`:
normalization (lowercase, strip, collapse whitespace) runs before the exact-match
controlled-vocabulary mapping. -/
theorem statusCleanScenarioA :
    (transform ordersA usersA).map (fun a => getCol a "status_clean") =
      .ok (some [some (.str "paid"), some (.str "refund"), some (.str "paid")]) := by
  decide

/-- C1 counterexample: the claim fails for `etl.transform`, one of the two
pipeline computations calling `safe_left_join`: it performs no post-join
row-count verification, so with a joiner whose result's row count deviates
from the left input's it still returns successfully (row count 0 against a
3-row orders input) instead of aborting. -/
theorem transformRowCountUnchecked :
    (transformW badJoin ordersA usersA).map nRows = .ok 0 ∧ nRows ordersA = 3 := by
  exact ⟨by decide, rfl⟩

/-- C2: the full `run_etl` pipeline has no post-transform range check: on the
scenario-B input whose single row has `amount = -5` (all other checks pass) it
finishes without a fatal error and hands all four writes, the analytics table
still carrying the negative amount, to the Writer; the day-2 script's own
range check rejects the very same input with `RangeError` before writing. -/
theorem runEtlMissesRangeCheck :
    (run_etl cfg0 (.ok (ordersNeg, usersOne))).2 = none ∧
    (run_etl cfg0 (.ok (ordersNeg, usersOne))).1.length = 4 ∧
    (transform ordersNeg usersOne).map (fun a => getCol a "amount") =
      .ok (some [some (.num (-5))]) ∧
    day2Main ordersNeg usersOne = .error (.rangeError "amount") := by
  refine ⟨by decide, by decide, by decide, by decide⟩

/-- C4: in `etl.transform` the `amount` column is overwritten with the capped
values before `add_outlier_flag` runs, so the flag is computed from the capped
column, not from the original values: on a fixture whose original amount 1000
lies outside the winsorize bounds (it is capped to 7), every `amount_outlier`
flag in the transform's analytics table is false.  The day-3 script, which
flags the original column and caps into the separate `amount_winsor` column,
flags that row true. -/
theorem outlierFlagUsesCappedAmount :
    (transform ordersOut usersOne).map (fun a => getCol a "amount") =
      .ok (some [some (.num 1), some (.num 2), some (.num 3), some (.num 4),
        some (.num 7)]) ∧
    (transform ordersOut usersOne).map (fun a => getCol a "amount_outlier") =
      .ok (some (List.replicate 5 (some (.boolean false)))) ∧
    (day3Main ordersOutC usersOne).map
        (fun ws => (headFrame ws).map (fun df => getCol df "amount")) =
      .ok (some (some [some (.num 1), some (.num 2), some (.num 3), some (.num 4),
        some (.num 1000)])) ∧
    (day3Main ordersOutC usersOne).map
        (fun ws => (headFrame ws).map (fun df => getCol df "amount_winsor")) =
      .ok (some (some [some (.num 1), some (.num 2), some (.num 3), some (.num 4),
        some (.num 7)])) ∧
    (day3Main ordersOutC usersOne).map
        (fun ws => (headFrame ws).map (fun df => getCol df "amount_outlier")) =
      .ok (some (some [some (.boolean false), some (.boolean false),
        some (.boolean false), some (.boolean false), some (.boolean true)])) := by
  refine ⟨by decide, by decide, by decide, by decide, by decide⟩

/-- C5 counterexample: on a four-row analytics table with one null
`created_at` and one null `country`, the metadata's `missing_created_at` is
the count 1, not the fraction 1/4 of rows with an unparseable timestamp, and
`country_match_rate` is 3/4, the fraction of rows WITH a country match, not
the fraction 1/4 of rows with no match. -/
theorem runMetaMetricsCounterexample :
    (writeRunMeta cfg0 ordersA usersA analyticsM).missing_created_at.map
        (fun n => (n : ℚ)) ≠ some (nullFraction analyticsM "created_at") ∧
    (writeRunMeta cfg0 ordersA usersA analyticsM).country_match_rate ≠
      some (nullFraction analyticsM "country") ∧
    nullFraction analyticsM "created_at" = Rat.divInt 1 4 ∧
    nullFraction analyticsM "country" = Rat.divInt 1 4 ∧
    (writeRunMeta cfg0 ordersA usersA analyticsM).missing_created_at = some 1 ∧
    (writeRunMeta cfg0 ordersA usersA analyticsM).country_match_rate =
      some (Rat.divInt 3 4) := by
  refine ⟨by decide, by decide, by decide, by decide, rfl, by decide⟩

/-- The kernel-reducible product agrees with multiplication on ℚ. -/
theorem qmul_eq (a b : ℚ) : qmul a b = a * b := by
  rw [qmul, Rat.divInt_eq_div]
  conv_rhs => rw [← Rat.num_div_den a, ← Rat.num_div_den b]
  rw [div_mul_div_comm]
  push_cast
  ring_nf

/-- The kernel-reducible difference agrees with subtraction on ℚ. -/
theorem qsub_eq (a b : ℚ) : qsub a b = a - b := by
  rw [qsub, Rat.divInt_eq_div]
  conv_rhs => rw [← Rat.num_div_den a, ← Rat.num_div_den b]
  rw [div_sub_div _ _ (by positivity) (by positivity)]
  push_cast
  ring_nf

/-- The kernel-reducible sum agrees with addition on ℚ. -/
theorem qadd_eq (a b : ℚ) : qadd a b = a + b := by
  rw [qadd, Rat.divInt_eq_div]
  conv_rhs => rw [← Rat.num_div_den a, ← Rat.num_div_den b]
  rw [div_add_div _ _ (by positivity) (by positivity)]
  push_cast
  ring_nf

/-- C5 (amended): the run metadata record has exactly the fields
rows_in_orders_raw, rows_in_users, rows_out_analytics, metrics and config;
its two derived metrics are the COUNT of rows with a null (unparseable)
created_at and one minus the fraction of rows with null country, i.e. the
fraction of rows WITH a matching country. -/
theorem runMetaFields (cfg : ETLConfig) (o u a : DataFrame)
    (h1 : hasCol a "created_at" = true) (h2 : hasCol a "country" = true) :
    writeRunMeta cfg o u a =
      { rows_in_orders_raw := nRows o
        rows_in_users := nRows u
        rows_out_analytics := nRows a
        missing_created_at := some (nullCount a "created_at")
        country_match_rate := some (1 - nullFraction a "country")
        config := cfg } := by
  simp [writeRunMeta, h1, h2, qsub_eq]

/-- C5 witness: the amended record equation at the four-row analytics fixture. -/
theorem runMetaFieldsWitness :
    hasCol analyticsM "created_at" = true ∧ hasCol analyticsM "country" = true ∧
    writeRunMeta cfg0 ordersA usersA analyticsM =
      { rows_in_orders_raw := 3, rows_in_users := 2, rows_out_analytics := 4,
        missing_created_at := some 1, country_match_rate := some (Rat.divInt 3 4),
        config := cfg0 } := by
  refine ⟨rfl, rfl, ?_⟩
  rw [runMetaFields cfg0 ordersA usersA analyticsM rfl rfl]
  have h : nullFraction analyticsM "country" = Rat.divInt 1 4 := by decide
  have h2 : nullCount analyticsM "created_at" = 1 := by decide
  rw [h, h2]
  have h3 : (1 : ℚ) - Rat.divInt 1 4 = Rat.divInt 3 4 := by
    rw [Rat.divInt_eq_div, Rat.divInt_eq_div]
    norm_num
  simp only [h3]
  rfl

/-- C9: `write_run_meta` never fails on a missing column: an absent
`created_at` or `country` column yields a null metric; otherwise
missing_created_at is the count of null created_at values and
country_match_rate is one minus the fraction of null country values (the
column is assumed non-empty for the fraction, since the pandas mean of an
empty column is NaN, which is outside this model and unreachable in the
pipeline). -/
theorem runMetaMissingColumns (cfg : ETLConfig) (o u a : DataFrame) :
    (hasCol a "created_at" = false → (writeRunMeta cfg o u a).missing_created_at = none) ∧
    (hasCol a "country" = false → (writeRunMeta cfg o u a).country_match_rate = none) ∧
    (hasCol a "created_at" = true →
      (writeRunMeta cfg o u a).missing_created_at = some (nullCount a "created_at")) ∧
    (hasCol a "country" = true → 0 < (getColD a "country").length →
      (writeRunMeta cfg o u a).country_match_rate =
        some (1 - nullFraction a "country")) := by
  refine ⟨fun h => ?_, fun h => ?_, fun h => ?_, fun h _ => ?_⟩ <;>
    simp [writeRunMeta, h, qsub_eq]

/-- C9 witness: null metrics at a fixture lacking both columns, and the count
metric at the four-row fixture. -/
theorem runMetaMissingColumnsWitness :
    hasCol analyticsBare "created_at" = false ∧
    hasCol analyticsBare "country" = false ∧
    (writeRunMeta cfg0 ordersA usersA analyticsBare).missing_created_at = none ∧
    (writeRunMeta cfg0 ordersA usersA analyticsBare).country_match_rate = none ∧
    (writeRunMeta cfg0 ordersA usersA analyticsM).missing_created_at =
      some (nullCount analyticsM "created_at") := by
  refine ⟨rfl, rfl,
    (runMetaMissingColumns cfg0 ordersA usersA analyticsBare).1 rfl,
    (runMetaMissingColumns cfg0 ordersA usersA analyticsBare).2.1 rfl,
    (runMetaMissingColumns cfg0 ordersA usersA analyticsM).2.2.1 rfl⟩

/-- C6: in `run_etl`, the metadata write happens only after the transform has
succeeded and strictly after every `load_outputs` write, and any failure
during extract or transform (including its validation gates) aborts the run
with no output and no metadata written. -/
theorem runEtlWriteOrder (cfg : ETLConfig)
    (loaded : Except ETLError (DataFrame × DataFrame)) :
    ((run_etl cfg loaded).2.isSome → (run_etl cfg loaded).1 = []) ∧
    (∀ w, run_etl cfg loaded = (w, none) →
      ∃ o u a, loaded = .ok (o, u) ∧ transform o u = .ok a ∧
        w = load_outputs a u cfg ++ [.meta cfg.runMeta (writeRunMeta cfg o u a)] ∧
        ∀ x ∈ load_outputs a u cfg, isMetaWrite x = false) := by
  cases loaded with
  | error e =>
    refine ⟨fun _ => rfl, fun w h => ?_⟩
    simp [run_etl] at h
  | ok p =>
    obtain ⟨o, u⟩ := p
    cases ht : transform o u with
    | error e =>
      refine ⟨fun _ => by simp [run_etl, ht], fun w h => ?_⟩
      simp [run_etl, ht] at h
    | ok a =>
      refine ⟨fun hs => ?_, fun w h => ?_⟩
      · simp [run_etl, ht] at hs
      · refine ⟨o, u, a, rfl, ht, ?_, ?_⟩
        · have hw := congrArg Prod.fst h
          simpa [run_etl, ht] using hw.symm
        · intro x hx
          simp only [load_outputs, List.mem_cons, List.not_mem_nil, or_false] at hx
          rcases hx with h1 | h1 | h1 <;> subst h1 <;> rfl

/-- C6 witness: a failed load yields no writes, and a successful concrete run
ends with the metadata write after the three output writes. -/
theorem runEtlWriteOrderWitness :
    (run_etl cfg0 (.error .sourceReadError)).1 = [] ∧
    (∃ o u a, (Except.ok (ordersA, usersA) :
          Except ETLError (DataFrame × DataFrame)) = .ok (o, u) ∧
        transform o u = .ok a ∧
        (run_etl cfg0 (.ok (ordersA, usersA))).1 =
          load_outputs a u cfg0 ++ [.meta cfg0.runMeta (writeRunMeta cfg0 o u a)] ∧
        ∀ x ∈ load_outputs a u cfg0, isMetaWrite x = false) := by
  constructor
  · exact (runEtlWriteOrder cfg0 (.error .sourceReadError)).1 rfl
  · obtain ⟨o, u, a, h1, h2, h3, h4⟩ :=
      (runEtlWriteOrder cfg0 (.ok (ordersA, usersA))).2
        (run_etl cfg0 (.ok (ordersA, usersA))).1 (Prod.ext rfl (by decide))
    exact ⟨o, u, a, h1, h2, h3, h4⟩

/-- C1 (amended): the day-3 analytics script verifies after the join that the
result's row count equals the left input's, and any deviation aborts the run
with the fatal `AssertionError`, whichever result the joiner returns. -/
theorem day3RowCountGuard
    (join : DataFrame → DataFrame → String → Except ETLError DataFrame)
    (o u jres : DataFrame)
    (h1 : require_columns o day3OrderCols = .ok ())
    (h2 : require_columns u usersCols = .ok ())
    (h3 : assert_non_empty o "orders_clean" = .ok ())
    (h4 : assert_non_empty u "users" = .ok ())
    (h5 : assert_unique_key u "user_id" = .ok ())
    (hj : join (cleanedDay3 o) u "user_id" = .ok jres)
    (hne : nRows jres ≠ nRows (cleanedDay3 o)) :
    day3W join o u = .error (.assertionError "Row count changed on left join") := by
  simp [day3W, h1, h2, h3, h4, h5, hj, hne, Bind.bind, Except.bind]

/-- C1 witness: the guard fires on a concrete joiner that loses every row. -/
theorem day3RowCountGuardWitness :
    require_columns ordersOutC day3OrderCols = .ok () ∧
    assert_unique_key usersOne "user_id" = .ok () ∧
    badJoin (cleanedDay3 ordersOutC) usersOne "user_id" = .ok ⟨[("order_id", [])]⟩ ∧
    day3W badJoin ordersOutC usersOne =
      .error (.assertionError "Row count changed on left join") := by
  refine ⟨by decide, by decide, rfl, ?_⟩
  exact day3RowCountGuard badJoin ordersOutC usersOne ⟨[("order_id", [])]⟩
    (by decide) (by decide) (by decide) (by decide) (by decide) rfl (by decide)

/-- Searching a filtered list finds the same element when the search predicate
entails the filter predicate. -/
theorem find?_filter_of_imp {α : Type} (l : List α) (p q : α → Bool)
    (h : ∀ c, q c = true → p c = true) : (l.filter p).find? q = l.find? q := by
  induction l with
  | nil => rfl
  | cons a t ih =>
    cases hq : q a with
    | true =>
      have hp := h a hq
      simp [List.filter_cons, hp, hq]
    | false =>
      cases hp : p a with
      | true => simp [List.filter_cons, hp, hq, ih]
      | false => simp [List.filter_cons, hp, hq, ih]

/-- C10: `load_outputs` derives `orders_clean` from the analytics table by
dropping exactly those users columns other than `user_id` that appear in
analytics; it keeps `user_id` and every remaining analytics column with its
data unchanged and in order, preserving the row count, and that dataset is the
third write handed to the Writer. -/
theorem ordersCleanDerivation (a u : DataFrame) (cfg : ETLConfig) :
    (ordersCleanOf a u).cols =
      a.cols.filter (fun c => c.1 == "user_id" || !((colNames u).contains c.1)) ∧
    (∀ c ∈ (ordersCleanOf a u).cols, c ∈ a.cols) ∧
    (hasCol a "user_id" = true →
      getCol (ordersCleanOf a u) "user_id" = getCol a "user_id") ∧
    (∀ L, (∀ c ∈ a.cols, c.2.length = L) →
      ∀ c ∈ (ordersCleanOf a u).cols, c.2.length = L) ∧
    (load_outputs a u cfg).get? 2 =
      some (.parquet cfg.out_orders_clean (ordersCleanOf a u)) := by
  have hchar : (ordersCleanOf a u).cols =
      a.cols.filter (fun c => c.1 == "user_id" || !((colNames u).contains c.1)) := by
    show a.cols.filter _ = a.cols.filter _
    apply List.filter_congr
    intro c hc
    have hmem : c.1 ∈ colNames a := List.mem_map_of_mem (fun x => x.1) hc
    by_cases hid : c.1 = "user_id" <;>
      by_cases hcu : c.1 ∈ colNames u <;>
        simp [List.contains, List.elem_eq_mem, List.mem_filter, hid, hcu, hmem]
  refine ⟨hchar, ?_, ?_, ?_, rfl⟩
  · intro c hc
    rw [hchar] at hc
    exact (List.mem_filter.mp hc).1
  · intro _
    have hfind : (ordersCleanOf a u).cols.find? (fun c => c.1 == "user_id") =
        a.cols.find? (fun c => c.1 == "user_id") := by
      show (a.cols.filter _).find? _ = _
      apply find?_filter_of_imp
      intro c hcq
      have hid : c.1 = "user_id" := by simpa using hcq
      simp [List.contains, List.elem_eq_mem, List.mem_filter, hid]
    unfold getCol
    rw [hfind]
  · intro L hL c hc
    rw [hchar] at hc
    exact hL c (List.mem_filter.mp hc).1

/-- C10 witness: on a concrete analytics table with a `user_id` and a user-side
`country` column, exactly `country` is dropped, `user_id` and data survive and
row count is preserved. -/
theorem ordersCleanDerivationWitness :
    hasCol analyticsD "user_id" = true ∧
    (∀ c ∈ analyticsD.cols, c.2.length = 2) ∧
    getCol (ordersCleanOf analyticsD usersA) "user_id" = getCol analyticsD "user_id" ∧
    (∀ c ∈ (ordersCleanOf analyticsD usersA).cols, c.2.length = 2) ∧
    colNames (ordersCleanOf analyticsD usersA) = ["order_id", "user_id", "amount"] := by
  refine ⟨rfl, by decide, ?_, ?_, by decide⟩
  · exact (ordersCleanDerivation analyticsD usersA cfg0).2.2.1 rfl
  · exact (ordersCleanDerivation analyticsD usersA cfg0).2.2.2.1 2 (by decide)

/-- A joined right-side cell is null at every left row whose key is unmatched. -/
theorem lookupNoneOfUnmatched (rkey rdata lkey : List Cell) (i : Nat)
    (h : matchIdx rkey (lkey.getD i none) = none) :
    (lkey.map (lookupCell rkey rdata)).getD i none = none := by
  rw [List.getD_eq_getElem?_getD, List.getElem?_map]
  cases hv : lkey[i]? with
  | none => rfl
  | some v =>
    have hg : lkey.getD i none = v := by rw [List.getD_eq_getElem?_getD, hv]; rfl
    rw [hg] at h
    simp [lookupCell, h]

/-- Search of the mapped right-side columns finds the mapped column of the
first right column with the sought name. -/
theorem findMappedRight (lkey rkey : List Cell) (key : String)
    (rcols : List (String × List Cell)) (c : String × List Cell)
    (hc : c ∈ rcols) (hck : c.1 ≠ key) (hnd : (rcols.map (fun x => x.1)).Nodup) :
    ((rcols.filter (fun x => x.1 != key)).map
        (fun x => (x.1, lkey.map (lookupCell rkey x.2)))).find?
      (fun x => x.1 == c.1) = some (c.1, lkey.map (lookupCell rkey c.2)) := by
  induction rcols with
  | nil => cases hc
  | cons a t ih =>
    rw [List.map_cons, List.nodup_cons] at hnd
    rcases List.mem_cons.mp hc with rfl | hct
    · have hb : (c.1 != key) = true := by simpa using hck
      rw [List.filter_cons, if_pos hb, List.map_cons]
      exact List.find?_cons_of_pos _ (by simp)
    · have hcn : c.1 ∈ t.map (fun x => x.1) := List.mem_map_of_mem _ hct
      have hane : a.1 ≠ c.1 := fun hax => hnd.1 (hax ▸ hcn)
      rw [List.filter_cons]
      cases hb : (a.1 != key) with
      | false =>
        rw [if_neg (by simp [hb])]
        exact ih hct hnd.2
      | true =>
        rw [if_pos rfl, List.map_cons]
        rw [List.find?_cons_of_neg _ (by simpa using hane)]
        exact ih hct hnd.2

/-- C3: `safe_left_join` fails with `JoinCardinalityError` exactly when the
right key column has a duplicate, before any join output is produced; when it
succeeds, the result has exactly as many rows as the left input, and every
right-side non-key column carries null at each left row whose key has no
match in the right key column. -/
theorem safeLeftJoinCardinality (l r : DataFrame) (key : String)
    (hdisj : ∀ c ∈ r.cols, c.1 ≠ key → c.1 ∉ colNames l)
    (hnd : (colNames r).Nodup) :
    (safe_left_join l r key = .error .joinCardinalityError ↔
      ¬ (getColD r key).Nodup) ∧
    (∀ res, safe_left_join l r key = .ok res →
      nRows res = nRows l ∧
      ∀ c ∈ r.cols, c.1 ≠ key →
        ∃ data, getCol res c.1 = some data ∧
          ∀ i, matchIdx (getColD r key) ((getColD l key).getD i none) = none →
            data.getD i none = none) := by
  constructor
  · by_cases hk : (getColD r key).Nodup <;> simp [safe_left_join, hk]
  · intro res hres
    by_cases hk : (getColD r key).Nodup
    · simp only [safe_left_join, if_pos hk, Except.ok.injEq] at hres
      subst hres
      constructor
      · cases hl : l.cols with
        | cons c t => simp [nRows, hl]
        | nil =>
          have hlk : getColD l key = [] := by simp [getColD, getCol, hl]
          cases hf : r.cols.filter (fun c => c.1 != key) with
          | nil => simp [nRows, hl, hf]
          | cons x xs => simp [nRows, hl, hf, hlk]
      · intro c hc hck
        refine ⟨(getColD l key).map (lookupCell (getColD r key) c.2), ?_, ?_⟩
        · have hfl : l.cols.find? (fun x => x.1 == c.1) = none := by
            rw [List.find?_eq_none]
            intro x hx
            have hxn : x.1 ∈ colNames l := List.mem_map_of_mem _ hx
            have : x.1 ≠ c.1 := fun hxe => hdisj c hc hck (hxe ▸ hxn)
            simpa using this
          show ((l.cols ++ _).find? _).map _ = _
          rw [List.find?_append, hfl, Option.none_or,
            findMappedRight (getColD l key) (getColD r key) key r.cols c hc hck hnd]
          rfl
        · intro i hi
          exact lookupNoneOfUnmatched _ c.2 _ i hi
    · simp [safe_left_join, hk] at hres

/-- C3 witness: the cardinality error at a duplicated right key, and row-count
preservation with a null country at the unmatched left row on concrete data. -/
theorem safeLeftJoinCardinalityWitness :
    (safe_left_join ordersA usersDup "user_id" = .error .joinCardinalityError) ∧
    (safe_left_join ordersOut usersA "user_id").map nRows = .ok (nRows ordersOut) := by
  constructor
  · exact (safeLeftJoinCardinality ordersA usersDup "user_id" (by decide)
      (by decide)).1.mpr (by decide)
  · have e : safe_left_join ordersOut usersA "user_id" = .ok _ := rfl
    rw [e]
    have h := ((safeLeftJoinCardinality ordersOut usersA "user_id" (by decide)
      (by decide)).2 _ e).1
    simp only [Except.map]
    rw [h]

/-- Clamping is monotone on a well-ordered interval. -/
theorem clampQ_mono (lo hi : ℚ) (hlh : lo ≤ hi) : Monotone (clampQ lo hi) := by
  intro a b hab
  unfold clampQ
  split_ifs <;> linarith

/-- Clamping fixes values already inside the interval. -/
theorem clampQ_eq_self (lo hi x : ℚ) (h1 : lo ≤ x) (h2 : x ≤ hi) :
    clampQ lo hi x = x := by
  unfold clampQ
  split_ifs <;> linarith

/-- Clamped values lie inside the interval. -/
theorem clampQ_mem (lo hi x : ℚ) (hlh : lo ≤ hi) :
    lo ≤ clampQ lo hi x ∧ clampQ lo hi x ≤ hi := by
  unfold clampQ
  split_ifs <;> constructor <;> linarith

/-- Clamping twice is clamping once. -/
theorem clampQ_idem (lo hi x : ℚ) (hlh : lo ≤ hi) :
    clampQ lo hi (clampQ lo hi x) = clampQ lo hi x :=
  clampQ_eq_self lo hi _ (clampQ_mem lo hi x hlh).1 (clampQ_mem lo hi x hlh).2

/-- Capping twice is capping once, cellwise. -/
theorem capCell_idem (lo hi : ℚ) (hlh : lo ≤ hi) (c : Cell) :
    capCell lo hi (capCell lo hi c) = capCell lo hi c := by
  cases c with
  | none => rfl
  | some v => cases v <;> simp [capCell, clampQ_idem lo hi _ hlh]

/-- The numeric content of a capped cell is the clamped numeric content. -/
theorem numOf_capCell (lo hi : ℚ) (c : Cell) :
    numOf (capCell lo hi c) = (numOf c).map (clampQ lo hi) := by
  cases c with
  | none => rfl
  | some v => cases v <;> rfl

/-- Collecting the numeric values of a capped column clamps the collected
values of the column. -/
theorem filterMap_numOf_map_capCell (lo hi : ℚ) (col : List Cell) :
    (col.map (capCell lo hi)).filterMap numOf =
      (col.filterMap numOf).map (clampQ lo hi) := by
  induction col with
  | nil => rfl
  | cons c t ih =>
    rw [List.map_cons, List.filterMap_cons, List.filterMap_cons, numOf_capCell]
    cases hnc : numOf c with
    | none => simpa using ih
    | some q => simp [List.map_cons, ih]

/-- Sorting commutes with a monotone map. -/
theorem insertionSort_map_monotone (f : ℚ → ℚ) (hf : Monotone f) (l : List ℚ) :
    (l.map f).insertionSort (fun a b => a ≤ b) =
      (l.insertionSort (fun a b => a ≤ b)).map f := by
  apply List.eq_of_perm_of_sorted (r := fun a b : ℚ => a ≤ b)
  · exact (List.perm_insertionSort _ _).trans
      (((List.perm_insertionSort _ l).symm).map f)
  · exact List.sorted_insertionSort _ _
  · exact List.Pairwise.map f (fun a b hab => hf hab)
      (List.sorted_insertionSort _ l)

/-- Reading a mapped list at an in-range index maps the read value. -/
theorem getD_map_of_lt (f : ℚ → ℚ) (l : List ℚ) (i : Nat) (h : i < l.length) :
    (l.map f).getD i 0 = f (l.getD i 0) := by
  rw [List.getD_eq_getElem?_getD, List.getElem?_map, List.getElem?_eq_getElem h,
    List.getD_eq_getElem?_getD, List.getElem?_eq_getElem h]
  rfl

/-- Order statistics of a sorted list are monotone in the index. -/
theorem sorted_getD_mono (s : List ℚ) (hs : List.Sorted (fun a b : ℚ => a ≤ b) s)
    (i j : Nat) (hij : i ≤ j) (hj : j < s.length) : s.getD i 0 ≤ s.getD j 0 := by
  have hi : i < s.length := lt_of_le_of_lt hij hj
  rw [List.getD_eq_getElem?_getD, List.getD_eq_getElem?_getD,
    List.getElem?_eq_getElem hi, List.getElem?_eq_getElem hj]
  have := hs.rel_get_of_le (a := ⟨i, hi⟩) (b := ⟨j, hj⟩) hij
  simpa using this

/-- The sorted numeric values of a column are sorted. -/
theorem sortedVals_sorted (col : List Cell) :
    List.Sorted (fun a b : ℚ => a ≤ b) (sortedVals col) :=
  List.sorted_insertionSort _ _

/-- The bounds of a non-empty sorted list, written out. -/
theorem winsorBoundsOf_ne_nil (s : List ℚ) (h : ¬ s.isEmpty) :
    winsorBoundsOf s = some (qsub (q1Of s) (reachOf s), qadd (q3Of s) (reachOf s)) := by
  rw [winsorBoundsOf, if_neg h]

/-- Winsorization caps every cell when the bounds exist. -/
theorem winsorize_eq_of_bounds (col : List Cell) (lo hi : ℚ)
    (h : winsorBounds col = some (lo, hi)) :
    winsorize col = col.map (capCell lo hi) := by
  unfold winsorize
  rw [h]

/-- Winsorization is the identity when the bounds are undefined. -/
theorem winsorize_eq_of_none (col : List Cell) (h : winsorBounds col = none) :
    winsorize col = col := by
  unfold winsorize
  rw [h]

/-- The quartile facts carried by a defined pair of bounds. -/
theorem winsorBounds_spec (col : List Cell) (lo hi : ℚ)
    (h : winsorBounds col = some (lo, hi)) :
    ¬ (sortedVals col).isEmpty ∧
    lo = qsub (q1Of (sortedVals col)) (reachOf (sortedVals col)) ∧
    hi = qadd (q3Of (sortedVals col)) (reachOf (sortedVals col)) ∧
    q1Of (sortedVals col) ≤ q3Of (sortedVals col) ∧
    lo ≤ q1Of (sortedVals col) ∧ q3Of (sortedVals col) ≤ hi ∧ lo ≤ hi := by
  rw [winsorBounds, winsorBoundsOf] at h
  by_cases he : (sortedVals col).isEmpty
  · rw [if_pos he] at h
    cases h
  · rw [if_neg he] at h
    have hlo : lo = qsub (q1Of (sortedVals col)) (reachOf (sortedVals col)) := by
      have := congrArg (fun p => Option.map Prod.fst p) h
      simpa using this.symm
    have hhi : hi = qadd (q3Of (sortedVals col)) (reachOf (sortedVals col)) := by
      have := congrArg (fun p => Option.map Prod.snd p) h
      simpa using this.symm
    have hpos : 0 < (sortedVals col).length := by
      cases hsv : sortedVals col with
      | nil => rw [hsv] at he; simp at he
      | cons a t => simp
    have h13 : q1Of (sortedVals col) ≤ q3Of (sortedVals col) := by
      apply sorted_getD_mono _ (sortedVals_sorted col)
      · omega
      · omega
    have hreach : 0 ≤ reachOf (sortedVals col) := by
      rw [reachOf, qmul_eq, qsub_eq, Rat.divInt_eq_div]
      have h32 : (0:ℚ) ≤ ((3:ℤ):ℚ) / ((2:ℤ):ℚ) := by norm_num
      exact mul_nonneg h32 (by linarith)
    refine ⟨he, hlo, hhi, h13, ?_, ?_, ?_⟩
    · rw [hlo, qsub_eq]; linarith
    · rw [hhi, qadd_eq]; linarith
    · rw [hlo, hhi, qsub_eq, qadd_eq]; linarith

/-- The quartiles of a clamped sorted list are the clamped quartiles. -/
theorem q1Of_map_clamp (lo hi : ℚ) (s : List ℚ) (hpos : 0 < s.length) :
    q1Of (s.map (clampQ lo hi)) = clampQ lo hi (q1Of s) := by
  rw [q1Of, q1Of, List.length_map]
  exact getD_map_of_lt _ _ _ (by omega)

/-- The third quartile of a clamped sorted list is the clamped third quartile. -/
theorem q3Of_map_clamp (lo hi : ℚ) (s : List ℚ) (hpos : 0 < s.length) :
    q3Of (s.map (clampQ lo hi)) = clampQ lo hi (q3Of s) := by
  rw [q3Of, q3Of, List.length_map]
  exact getD_map_of_lt _ _ _ (by omega)

/-- Winsorizing does not move the bounds: the capped column has the same
quartile bounds as the original, since capping fixes both quartiles. -/
theorem winsorBounds_winsorize (col : List Cell) (lo hi : ℚ)
    (h : winsorBounds col = some (lo, hi)) :
    winsorBounds (winsorize col) = some (lo, hi) := by
  obtain ⟨hse, hlo, hhi, h13, hloq1, hq3hi, hlh⟩ := winsorBounds_spec col lo hi h
  have hpos : 0 < (sortedVals col).length := by
    cases hsv : sortedVals col with
    | nil => rw [hsv] at hse; simp at hse
    | cons a t => simp
  have hsw : sortedVals (winsorize col) = (sortedVals col).map (clampQ lo hi) := by
    rw [winsorize_eq_of_bounds col lo hi h]
    show ((col.map (capCell lo hi)).filterMap numOf).insertionSort _ = _
    rw [filterMap_numOf_map_capCell,
      insertionSort_map_monotone _ (clampQ_mono lo hi hlh)]
    rfl
  have hne : ¬ (sortedVals (winsorize col)).isEmpty := by
    rw [hsw]
    cases hsv : sortedVals col with
    | nil => rw [hsv] at hse; simp at hse
    | cons a t => simp
  rw [winsorBounds, winsorBoundsOf_ne_nil _ hne, hsw,
    q1Of_map_clamp lo hi _ hpos, q3Of_map_clamp lo hi _ hpos,
    clampQ_eq_self lo hi _ hloq1 (le_trans h13 hq3hi),
    clampQ_eq_self lo hi _ (le_trans hloq1 h13) hq3hi,
    reachOf, q1Of_map_clamp lo hi _ hpos, q3Of_map_clamp lo hi _ hpos,
    clampQ_eq_self lo hi _ hloq1 (le_trans h13 hq3hi),
    clampQ_eq_self lo hi _ (le_trans hloq1 h13) hq3hi,
    ← reachOf, ← hlo, ← hhi]

/-- C8: winsorization is idempotent, with the same bounds computed on the
capped column as on the original, and null cells pass through unchanged. -/
theorem winsorizeIdempotent (col : List Cell) :
    winsorize (winsorize col) = winsorize col ∧
    ∀ i, col.getD i none = none → (winsorize col).getD i none = none := by
  constructor
  · cases hb : winsorBounds col with
    | none =>
      rw [winsorize_eq_of_none col hb]
      exact winsorize_eq_of_none col hb
    | some p =>
      obtain ⟨lo, hi⟩ := p
      obtain ⟨hse, hlo, hhi, h13, hloq1, hq3hi, hlh⟩ := winsorBounds_spec col lo hi hb
      rw [winsorize_eq_of_bounds _ lo hi (winsorBounds_winsorize col lo hi hb),
        winsorize_eq_of_bounds col lo hi hb, List.map_map]
      apply List.map_congr_left
      intro c _
      exact capCell_idem lo hi hlh c
  · intro i hnull
    cases hb : winsorBounds col with
    | none => rw [winsorize_eq_of_none col hb]; exact hnull
    | some p =>
      obtain ⟨lo, hi⟩ := p
      rw [winsorize_eq_of_bounds col lo hi hb,
        List.getD_eq_getElem?_getD, List.getElem?_map]
      cases hv : col[i]? with
      | none => rfl
      | some c =>
        have : col.getD i none = c := by rw [List.getD_eq_getElem?_getD, hv]; rfl
        rw [this] at hnull
        subst hnull
        rfl

/-- C8 witness: idempotence and null passthrough on a concrete column with an
outlier and a null. -/
theorem winsorizeIdempotentWitness :
    winsorize (winsorize colW) = winsorize colW ∧
    colW.getD 1 none = none ∧
    (winsorize colW).getD 1 none = none := by
  exact ⟨(winsorizeIdempotent colW).1, rfl, (winsorizeIdempotent colW).2 1 rfl⟩
